import Mathlib

/-!
Verification development for the DEX token trade analysis pipeline
(`integrated_analysis.js`).  The JavaScript source is shallowly embedded:
numbers are rationals, JavaScript `Infinity` is a dedicated variant,
possibly-absent (`undefined` / `NaN`) values are `Option`s, and the
truthiness tests of the source are explicit boolean functions.
-/

namespace IA

/-- Whale trade threshold in quote currency (source line 27). -/
def WHALE_THRESHOLD : ℚ := 10000

/-- Medium trade threshold in quote currency (source line 28). -/
def MEDIUM_THRESHOLD : ℚ := 1000

/-- Retail trade threshold in quote currency (source line 29). -/
def RETAIL_THRESHOLD : ℚ := 100

/-- A JavaScript numeric result that may be `Infinity` (used for the
buy/sell quotient conventions of the source). -/
inductive JsNum where
  | fin : ℚ → JsNum
  | inf : JsNum
deriving DecidableEq, Repr

/-- `x > c` for a possibly-infinite number, as JavaScript evaluates it. -/
def JsNum.gtB : JsNum → ℚ → Bool
  | .fin x, c => decide (c < x)
  | .inf, _ => true

/-- `x < c` for a possibly-infinite number, as JavaScript evaluates it. -/
def JsNum.ltB : JsNum → ℚ → Bool
  | .fin x, c => decide (x < c)
  | .inf, _ => false

/-- JavaScript truthiness of a possibly-absent number (absent and 0 are falsy). -/
def truthyQ : Option ℚ → Bool
  | none => false
  | some x => decide (x ≠ 0)

/-- JavaScript truthiness of a possibly-absent integer timestamp. -/
def truthyI : Option Int → Bool
  | none => false
  | some t => decide (t ≠ 0)

/-- JavaScript truthiness of a possibly-absent string (absent and "" are falsy). -/
def truthyS : Option String → Bool
  | none => false
  | some s => decide (s ≠ "")

/-- A raw CSV row as handed to the preprocessing `map` (source line 109):
every field may be absent. -/
structure RawRow where
  trade_timestamp : Option Int := none
  type : Option String := none
  trader_wallet_address : Option String := none
  buy_price : Option ℚ := none
  sell_price : Option ℚ := none
  buy_amount : Option ℚ := none
  sell_amount : Option ℚ := none
  net_sol_balance_change : Option ℚ := none
deriving DecidableEq, Repr

/-- A normalized trade record as produced by `processedData`
(source lines 109-149).  `price` is `none` where the source would hold
`NaN` (a `parseFloat` of an absent field). -/
structure TradeRecord where
  trade_timestamp : Int
  type : String
  trader_wallet_address : Option String
  buy_price : Option ℚ
  sell_price : Option ℚ
  buy_amount : ℚ
  sell_amount : ℚ
  transaction_value : ℚ
  price : Option ℚ
  net_sol_balance_change : Option ℚ
deriving DecidableEq, Repr

/-- One step of the preprocessing `map` (source lines 109-149): compute the
transaction value for the active side, drop the row unless it has a truthy
timestamp, a truthy type and a truthy amount on some side, and coerce the
per-side fields. -/
def normRow (r : RawRow) : Option TradeRecord :=
  let tv : ℚ :=
    if r.type = some "TOKEN_BUY" ∧ truthyQ r.buy_price ∧ truthyQ r.buy_amount then
      r.buy_price.getD 0 * r.buy_amount.getD 0
    else if r.type = some "TOKEN_SELL" ∧ truthyQ r.sell_price ∧ truthyQ r.sell_amount then
      r.sell_price.getD 0 * r.sell_amount.getD 0
    else 0
  if truthyI r.trade_timestamp ∧ truthyS r.type ∧
      (truthyQ r.buy_amount ∨ truthyQ r.sell_amount) then
    some
      { trade_timestamp := r.trade_timestamp.getD 0
        type := r.type.getD ""
        trader_wallet_address := r.trader_wallet_address
        buy_price := r.buy_price
        sell_price := r.sell_price
        buy_amount := if r.type = some "TOKEN_BUY" then r.buy_amount.getD 0 else 0
        sell_amount := if r.type = some "TOKEN_SELL" then r.sell_amount.getD 0 else 0
        transaction_value := tv
        price := if r.type = some "TOKEN_BUY" then r.buy_price else r.sell_price
        net_sol_balance_change := r.net_sol_balance_change }
  else none

/-- `processedData` (source lines 109-149): map the rows through
normalization and drop the invalid ones. -/
def processedData (data : List RawRow) : List TradeRecord :=
  data.filterMap normRow

/-- Timestamp order on trade records, the key of the sort at source line 152. -/
def tsLE (a b : TradeRecord) : Prop :=
  a.trade_timestamp ≤ b.trade_timestamp

instance : DecidableRel tsLE := fun a b =>
  inferInstanceAs (Decidable (a.trade_timestamp ≤ b.trade_timestamp))

instance : IsTotal TradeRecord tsLE :=
  ⟨fun a b => Int.le_total a.trade_timestamp b.trade_timestamp⟩

instance : IsTrans TradeRecord tsLE :=
  ⟨fun _ _ _ h1 h2 => le_trans h1 h2⟩

/-- `sortedData` (source line 152): the normalized records sorted by
timestamp.  Lodash `sortBy` is a stable sort, as is insertion sort on `≤`. -/
def sortedData (data : List RawRow) : List TradeRecord :=
  List.insertionSort tsLE (processedData data)

/-- `_.sortBy(sortedData, 'trade_timestamp')` (source line 530) applied to an
already materialized record list. -/
def sortedTransactions (l : List TradeRecord) : List TradeRecord :=
  List.insertionSort tsLE l

/-! ### Wallet activity aggregator (source lines 192-226) -/

/-- The wallet addresses owning a profile: rows without an address are
skipped by the guard at source line 194, and each remaining address keys one
entry of the `walletActivity` map. -/
def walletKeys (l : List TradeRecord) : List String :=
  (l.filterMap (·.trader_wallet_address)).dedup

/-- The records of wallet `a` in `l`. -/
def walletTxs (l : List TradeRecord) (a : String) : List TradeRecord :=
  l.filter (fun r => r.trader_wallet_address = some a)

/-- Buy count of wallet `a` (source line 215). -/
def buysCountOf (l : List TradeRecord) (a : String) : Nat :=
  ((walletTxs l a).filter (fun r => r.type = "TOKEN_BUY")).length

/-- Sell count of wallet `a` (source line 219). -/
def sellsCountOf (l : List TradeRecord) (a : String) : Nat :=
  ((walletTxs l a).filter (fun r => r.type = "TOKEN_SELL")).length

/-- Buy value of wallet `a` (source line 217, `transaction_value || 0`). -/
def buysValueOf (l : List TradeRecord) (a : String) : ℚ :=
  (((walletTxs l a).filter (fun r => r.type = "TOKEN_BUY")).map
    (·.transaction_value)).sum

/-- Sell value of wallet `a` (source line 221). -/
def sellsValueOf (l : List TradeRecord) (a : String) : ℚ :=
  (((walletTxs l a).filter (fun r => r.type = "TOKEN_SELL")).map
    (·.transaction_value)).sum

/-- Buy volume of wallet `a` (source line 216). -/
def buysVolumeOf (l : List TradeRecord) (a : String) : ℚ :=
  (((walletTxs l a).filter (fun r => r.type = "TOKEN_BUY")).map (·.buy_amount)).sum

/-- Sell volume of wallet `a` (source line 220). -/
def sellsVolumeOf (l : List TradeRecord) (a : String) : ℚ :=
  (((walletTxs l a).filter (fun r => r.type = "TOKEN_SELL")).map (·.sell_amount)).sum

/-- Total transaction count of wallet `a` (source line 224). -/
def txCountOf (l : List TradeRecord) (a : String) : Nat :=
  (walletTxs l a).length

/-- First-seen timestamp of wallet `a`: the min-fold of source line 210. -/
def firstSeenOf (l : List TradeRecord) (a : String) : Int :=
  (((walletTxs l a).map (·.trade_timestamp)).min?).getD 0

/-- Last-seen timestamp of wallet `a`: the max-fold of source line 211. -/
def lastSeenOf (l : List TradeRecord) (a : String) : Int :=
  (((walletTxs l a).map (·.trade_timestamp)).max?).getD 0

/-- Cumulative net SOL change of wallet `a` (source line 225,
`net_sol_balance_change || 0`). -/
def netSOLChangeOf (l : List TradeRecord) (a : String) : ℚ :=
  ((walletTxs l a).map (fun r => r.net_sol_balance_change.getD 0)).sum

/-- The buy/sell-count quotient convention of source lines 232-234:
`buys/sells` when both are positive, else `Infinity` when there are buys,
else `0`. -/
def quotientConvention (b s : Nat) : JsNum :=
  if 0 < b ∧ 0 < s then .fin ((b : ℚ) / (s : ℚ))
  else if 0 < b then .inf
  else .fin 0

/-- A suspected-manipulator entry (source lines 229-256). -/
structure Wallet where
  address : String
  totalValue : ℚ
  buyToSellQuotient : JsNum
  transactionCount : Nat
  timeActiveHours : ℚ
  transactionFrequency : ℚ
  netSOLChange : ℚ
  suspiciousScore : Nat
deriving DecidableEq, Repr

/-- One entry of `suspectedManipulators` before scoring
(source lines 229-256). -/
def mkManipulator (l : List TradeRecord) (a : String) : Wallet :=
  let hours : ℚ := ((lastSeenOf l a - firstSeenOf l a : Int) : ℚ) / 3600
  { address := a
    totalValue := buysValueOf l a + sellsValueOf l a
    buyToSellQuotient := quotientConvention (buysCountOf l a) (sellsCountOf l a)
    transactionCount := txCountOf l a
    timeActiveHours := hours
    transactionFrequency :=
      if 0 < hours then (txCountOf l a : ℚ) / hours else (txCountOf l a : ℚ)
    netSOLChange := netSOLChangeOf l a
    suspiciousScore := 0 }

/-- `suspectedManipulators` (source lines 229-256): one entry per wallet key. -/
def suspectedManipulators (l : List TradeRecord) : List Wallet :=
  (walletKeys l).map (mkManipulator l)

/-- The per-wallet suspicion scoring of source lines 259-280, transliterated
increment by increment in source order. -/
def suspiciousScoreOf (w : Wallet) : Nat :=
  (if WHALE_THRESHOLD * 10 < w.totalValue then 5
   else if WHALE_THRESHOLD < w.totalValue then 3 else 0) +
  (if w.buyToSellQuotient.gtB 10 || w.buyToSellQuotient.ltB (1/10) then 3 else 0) +
  (if 10 < w.transactionFrequency then 3
   else if 5 < w.transactionFrequency then 2 else 0) +
  (if w.timeActiveHours < 1 ∧ 20 < w.transactionCount then 4 else 0) +
  (if 10 < w.netSOLChange then 3 else 0)

/-- `suspectedManipulators` after the scoring pass (source lines 259-280). -/
def scoredManipulators (l : List TradeRecord) : List Wallet :=
  (suspectedManipulators l).map (fun w => { w with suspiciousScore := suspiciousScoreOf w })

/-- Descending suspicion-score order used at source line 284. -/
def scoreGE (a b : Wallet) : Prop :=
  b.suspiciousScore ≤ a.suspiciousScore

instance : DecidableRel scoreGE := fun a b =>
  inferInstanceAs (Decidable (b.suspiciousScore ≤ a.suspiciousScore))

instance : IsTotal Wallet scoreGE :=
  ⟨fun a b => Nat.le_total b.suspiciousScore a.suspiciousScore⟩

instance : IsTrans Wallet scoreGE :=
  ⟨fun _ _ _ h1 h2 => le_trans h2 h1⟩

/-- `topSuspiciousWallets` (source lines 283-285): sort descending by score,
keep the first 20. -/
def topSuspiciousWallets (l : List TradeRecord) : List Wallet :=
  (List.insertionSort scoreGE (scoredManipulators l)).take 20

/-! ### Time bucketing (source lines 291-293, 407-409, 676-678) -/

/-- The coarse/fine bucket key: `Math.floor(ts / w) * w`. -/
def bucketKey (w : Int) (t : Int) : Int :=
  t.fdiv w * w

/-- The bucket keys present in `l` for width `w`, in first-occurrence order
(the iteration order of the grouped object for an ascending input). -/
def bucketKeys (w : Int) (l : List TradeRecord) : List Int :=
  ((l.map (fun r => bucketKey w r.trade_timestamp)).dedup)

/-- The trades of bucket `k` at width `w`; grouping preserves input order. -/
def bucketTxs (w : Int) (l : List TradeRecord) (k : Int) : List TradeRecord :=
  l.filter (fun r => bucketKey w r.trade_timestamp = k)

/-- The hour-index keys of the whale-entry grouping (source line 677):
`Math.floor(ts / 3600)` with no multiplication back to seconds. -/
def hourKeys (l : List TradeRecord) : List Int :=
  ((l.map (fun r => r.trade_timestamp.fdiv 3600)).dedup)

/-- The trades of hour-index bucket `k` (source line 677). -/
def hourTxs (l : List TradeRecord) (k : Int) : List TradeRecord :=
  l.filter (fun r => r.trade_timestamp.fdiv 3600 = k)

/-! ### Price behaviour over coarse (600 s) buckets (source lines 291-359) -/

/-- Lodash `_.meanBy` over a possibly empty list: `none` stands for the `NaN`
result on an empty list. -/
def meanBy (l : List ℚ) : Option ℚ :=
  if l.length = 0 then none else some (l.sum / (l.length : ℚ))

/-- JavaScript `a || b` on possibly-absent numbers: keep `a` when truthy. -/
def jsOrQ (a b : Option ℚ) : Option ℚ :=
  if truthyQ a then a else b

/-- A coarse price interval (source lines 295-328). -/
structure PriceInterval where
  timestamp : Int
  avgBuyPrice : Option ℚ
  avgSellPrice : Option ℚ
  price : Option ℚ
  buyCount : Nat
  sellCount : Nat
  buyVolume : ℚ
  sellVolume : ℚ
  totalTransactions : Nat
deriving DecidableEq, Repr

/-- Build the interval of coarse bucket `k` (source lines 295-328): the mean
buy price averages the buys with a truthy `buy_price`, and `price` is the
JavaScript `avgBuyPrice || avgSellPrice`. -/
def mkPriceInterval (l : List TradeRecord) (k : Int) : PriceInterval :=
  let txs := bucketTxs 600 l k
  let buys := txs.filter (fun r => r.type = "TOKEN_BUY")
  let sells := txs.filter (fun r => r.type = "TOKEN_SELL")
  let avgBuy : Option ℚ :=
    if 0 < buys.length then
      meanBy ((buys.filter (fun r => truthyQ r.buy_price)).filterMap (·.buy_price))
    else none
  let avgSell : Option ℚ :=
    if 0 < sells.length then
      meanBy ((sells.filter (fun r => truthyQ r.sell_price)).filterMap (·.sell_price))
    else none
  { timestamp := k
    avgBuyPrice := avgBuy
    avgSellPrice := avgSell
    price := jsOrQ avgBuy avgSell
    buyCount := buys.length
    sellCount := sells.length
    buyVolume := (buys.map (·.buy_amount)).sum
    sellVolume := (sells.map (·.sell_amount)).sum
    totalTransactions := txs.length }

/-- Ascending timestamp order on price intervals (source line 333). -/
def ivLE (a b : PriceInterval) : Prop :=
  a.timestamp ≤ b.timestamp

instance : DecidableRel ivLE := fun a b =>
  inferInstanceAs (Decidable (a.timestamp ≤ b.timestamp))

instance : IsTotal PriceInterval ivLE :=
  ⟨fun a b => Int.le_total a.timestamp b.timestamp⟩

instance : IsTrans PriceInterval ivLE :=
  ⟨fun _ _ _ h1 h2 => le_trans h1 h2⟩

/-- `sortedPriceIntervals` (source lines 331-333): keep the intervals with a
truthy price, sorted ascending by timestamp. -/
def sortedPriceIntervals (l : List TradeRecord) : List PriceInterval :=
  List.insertionSort ivLE
    (((bucketKeys 600 l).map (mkPriceInterval l)).filter (fun i => truthyQ i.price))

/-- A significant price movement between adjacent intervals
(source lines 336-359). -/
structure PriceChange where
  startTimestamp : Int
  endTimestamp : Int
  startPrice : ℚ
  endPrice : ℚ
  percentChange : ℚ
  isSignificant : Bool
deriving DecidableEq, Repr

/-- The event for one adjacent interval pair: emitted only when the absolute
percent change exceeds 5 (source lines 341-357). -/
def mkPriceChange (prev curr : PriceInterval) : Option PriceChange :=
  let p := prev.price.getD 0
  let c := curr.price.getD 0
  let pc := (c - p) / p * 100
  if 5 < |pc| then
    some
      { startTimestamp := prev.timestamp
        endTimestamp := curr.timestamp
        startPrice := p
        endPrice := c
        percentChange := pc
        isSignificant := decide (10 < |pc|) }
  else none

/-- `priceChanges` (source lines 336-359): walk chronologically adjacent
interval pairs. -/
def priceChanges (l : List TradeRecord) : List PriceChange :=
  let s := sortedPriceIntervals l
  (s.zip s.tail).filterMap (fun pc => mkPriceChange pc.1 pc.2)

/-! ### Pump-and-dump detection (source lines 365-401) -/

/-- The retail buys the detector collects for a pump window: buys valued in
`(0, RETAIL_THRESHOLD]` with timestamp in the closed window
`[pumpStart, pumpEnd]` (source lines 375-381). -/
def retailBuysDuringPump (l : List TradeRecord) (pumpStart pumpEnd : Int) :
    List TradeRecord :=
  l.filter (fun tx =>
    tx.type = "TOKEN_BUY" ∧ pumpStart ≤ tx.trade_timestamp ∧
      tx.trade_timestamp ≤ pumpEnd ∧ 0 < tx.transaction_value ∧
      tx.transaction_value ≤ RETAIL_THRESHOLD)

/-- The whale sells the detector collects after a pump: sells valued at least
`MEDIUM_THRESHOLD` with timestamp in `(pumpEnd, pumpEnd + 1800]`
(source lines 384-389). -/
def whaleSellsAfterPump (l : List TradeRecord) (pumpEnd : Int) : List TradeRecord :=
  l.filter (fun tx =>
    tx.type = "TOKEN_SELL" ∧ pumpEnd < tx.trade_timestamp ∧
      tx.trade_timestamp ≤ pumpEnd + 1800 ∧ MEDIUM_THRESHOLD ≤ tx.transaction_value)

/-- A confirmed pump-and-dump candidate (source lines 392-399). -/
structure PumpPattern where
  pump : PriceChange
  retailBuysCount : Nat
  retailBuysValue : ℚ
  whaleSellsCount : Nat
  whaleSellsValue : ℚ
deriving DecidableEq, Repr

/-- The candidate for one extreme upward event: emitted only when there are
more than 5 retail buys and at least one whale sell (source line 391). -/
def mkPumpPattern (l : List TradeRecord) (c : PriceChange) : Option PumpPattern :=
  let retail := retailBuysDuringPump l c.startTimestamp c.endTimestamp
  let whales := whaleSellsAfterPump l c.endTimestamp
  if 5 < retail.length ∧ 0 < whales.length then
    some
      { pump := c
        retailBuysCount := retail.length
        retailBuysValue := (retail.map (·.transaction_value)).sum
        whaleSellsCount := whales.length
        whaleSellsValue := (whales.map (·.transaction_value)).sum }
  else none

/-- `pumpAndDumpPatterns` (source lines 365-401): one candidate check per
extreme upward price change. -/
def pumpAndDumpPatterns (l : List TradeRecord) : List PumpPattern :=
  ((priceChanges l).filter (fun c => 10 < c.percentChange)).filterMap (mkPumpPattern l)

/-! ### Suspicious fine (300 s) intervals (source lines 407-495) -/

/-- The distinct-wallet count of a bucket (source line 418): the set of
mapped addresses, where every missing address collapses to the single
`undefined` element. -/
def uniqueWalletCount (txs : List TradeRecord) : Nat :=
  ((txs.map (·.trader_wallet_address)).dedup).length

/-- The wash-trader candidates of a bucket (source lines 424-441): wallets
with an address that both buy and sell inside the bucket. -/
def washTraders (txs : List TradeRecord) : List String :=
  ((txs.filterMap (·.trader_wallet_address)).dedup).filter (fun a =>
    0 < (txs.filter (fun r =>
      r.trader_wallet_address = some a ∧ r.type = "TOKEN_BUY")).length ∧
    0 < (txs.filter (fun r =>
      r.trader_wallet_address = some a ∧ r.type = "TOKEN_SELL")).length)

/-- The whale transactions of a bucket (source line 449). -/
def whaleTxsOf (txs : List TradeRecord) : List TradeRecord :=
  txs.filter (fun r => WHALE_THRESHOLD ≤ r.transaction_value)

/-- The bucket-level buy/sell-count quotient (source line 446). -/
def intervalQuotient (buys sells : Nat) : JsNum :=
  if 0 < sells then .fin ((buys : ℚ) / (sells : ℚ))
  else if 0 < buys then .inf else .fin 0

/-- A suspicious-activity interval (source lines 412-493). -/
structure SuspInterval where
  timestamp : Int
  totalTransactions : Nat
  uniqueWallets : Nat
  buyCount : Nat
  sellCount : Nat
  buyToSellQuotient : JsNum
  washTradingCount : Nat
  whaleTransactionsCount : Nat
  uniqueWhaleWallets : Nat
  suspiciousScore : Nat
deriving DecidableEq, Repr

/-- Build the interval of fine bucket `k`, with the composite score computed
increment by increment in source order (source lines 412-491). -/
def mkSuspInterval (l : List TradeRecord) (k : Int) : SuspInterval :=
  let txs := bucketTxs 300 l k
  let buys := (txs.filter (fun r => r.type = "TOKEN_BUY")).length
  let sells := (txs.filter (fun r => r.type = "TOKEN_SELL")).length
  let q := intervalQuotient buys sells
  let wash := (washTraders txs).length
  let whales := whaleTxsOf txs
  let score :=
    (if 20 < txs.length ∧ uniqueWalletCount txs < 5 then 3 else 0) +
    (if 0 < wash then wash * 2 else 0) +
    (if q.gtB 10 || q.ltB (1/10) then 2 else 0) +
    (if 3 < whales.length then 3 else 0)
  { timestamp := k
    totalTransactions := txs.length
    uniqueWallets := uniqueWalletCount txs
    buyCount := buys
    sellCount := sells
    buyToSellQuotient := q
    washTradingCount := wash
    whaleTransactionsCount := whales.length
    uniqueWhaleWallets := ((whales.map (·.trader_wallet_address)).dedup).length
    suspiciousScore := score }

/-- Descending score order used at source line 493. -/
def suspGE (a b : SuspInterval) : Prop :=
  b.suspiciousScore ≤ a.suspiciousScore

instance : DecidableRel suspGE := fun a b =>
  inferInstanceAs (Decidable (b.suspiciousScore ≤ a.suspiciousScore))

instance : IsTotal SuspInterval suspGE :=
  ⟨fun a b => Nat.le_total b.suspiciousScore a.suspiciousScore⟩

instance : IsTrans SuspInterval suspGE :=
  ⟨fun _ _ _ h1 h2 => le_trans h2 h1⟩

/-- `suspiciousActivityIntervals` (source lines 412-493): intervals with a
positive score, sorted descending by score. -/
def suspiciousActivityIntervals (l : List TradeRecord) : List SuspInterval :=
  List.insertionSort suspGE
    (((bucketKeys 300 l).map (mkSuspInterval l)).filter
      (fun i => 0 < i.suspiciousScore))

/-- A reported coordinated activity (source lines 655-663). -/
structure Coordinated where
  timestamp : Int
  suspiciousScore : Nat
  whaleCount : Nat
  transactionCount : Nat
  buyToSellQuotient : JsNum
deriving DecidableEq, Repr

/-- The projection applied to a qualifying interval (source lines 655-663):
the reported `whaleCount` is the distinct-whale-wallet count. -/
def coordOf (i : SuspInterval) : Coordinated :=
  { timestamp := i.timestamp
    suspiciousScore := i.suspiciousScore
    whaleCount := i.uniqueWhaleWallets
    transactionCount := i.totalTransactions
    buyToSellQuotient := i.buyToSellQuotient }

/-- `coordinatedActivities` (source lines 653-663): the filter keeps the
intervals with score at least 5 and at least 2 whale TRANSACTIONS. -/
def coordinatedActivities (l : List TradeRecord) : List Coordinated :=
  (((suspiciousActivityIntervals l).filter (fun i =>
    5 ≤ i.suspiciousScore ∧ 2 ≤ i.whaleTransactionsCount))).map coordOf

/-! ### Whale entries (source lines 668-699) -/

/-- `totalTokenVolume` (source lines 668-672). -/
def totalTokenVolume (l : List TradeRecord) : ℚ :=
  (l.map (fun tx =>
    if tx.type = "TOKEN_BUY" then tx.buy_amount
    else if tx.type = "TOKEN_SELL" then tx.sell_amount else 0)).sum

/-- A whale-entry event (source lines 690-697).  `timestamp` is the raw
group key: the hour INDEX `floor(ts/3600)`, not an epoch second. -/
structure WhaleEntry where
  timestamp : Int
  whaleCount : Nat
  totalBuyVolume : ℚ
  percentOfTotalSupply : ℚ
  transactions : Nat
deriving DecidableEq, Repr

/-- The whale entry of one hour-index bucket, if at least 2 whale buys are
present (source lines 680-699). -/
def mkWhaleEntry (l : List TradeRecord) (k : Int) : Option WhaleEntry :=
  let buys := (hourTxs (sortedTransactions l) k).filter (fun tx =>
    tx.type = "TOKEN_BUY" ∧ WHALE_THRESHOLD ≤ tx.transaction_value)
  if 2 ≤ buys.length then
    let vol := (buys.map (·.buy_amount)).sum
    some
      { timestamp := k
        whaleCount := ((buys.map (·.trader_wallet_address)).dedup).length
        totalBuyVolume := vol
        percentOfTotalSupply := vol / totalTokenVolume l * 100
        transactions := buys.length }
  else none

/-- `whaleEntries` (source lines 675-699). -/
def whaleEntries (l : List TradeRecord) : List WhaleEntry :=
  (hourKeys (sortedTransactions l)).filterMap (mkWhaleEntry l)

/-! ### Market periods (source lines 530-590) -/

/-- The earliest observed timestamp (source line 531): the head of the
re-sorted sequence; 0 as a placeholder on an empty list (where the source
would throw). -/
def earliestTimestamp (l : List TradeRecord) : Int :=
  (((sortedTransactions l).head?).map (·.trade_timestamp)).getD 0

/-- The latest observed timestamp (source line 532). -/
def latestTimestamp (l : List TradeRecord) : Int :=
  (((sortedTransactions l).getLast?).map (·.trade_timestamp)).getD 0

/-- `periodDuration` (source line 535): integer floor division by 6. -/
def periodDuration (l : List TradeRecord) : Int :=
  (latestTimestamp l - earliestTimestamp l).fdiv 6

/-- One of the six market periods (source lines 538-590).  Only the fields
the claims speak about are carried. -/
structure Period where
  periodNumber : Nat
  startTime : Int
  endTime : Int
  transactionCount : Nat
  buyCount : Nat
  sellCount : Nat
  buyToSellQuotient : JsNum
  whaleTransactionsCount : Nat
deriving DecidableEq, Repr

/-- The trades of period `i` (source lines 542-544): timestamps in
`[startTime, endTime)`. -/
def periodTxs (l : List TradeRecord) (i : Nat) : List TradeRecord :=
  let s := earliestTimestamp l + (i : Int) * periodDuration l
  let e := earliestTimestamp l + ((i : Int) + 1) * periodDuration l
  l.filter (fun tx => s ≤ tx.trade_timestamp ∧ tx.trade_timestamp < e)

/-- Build period `i` (source lines 538-590). -/
def mkPeriod (l : List TradeRecord) (i : Nat) : Period :=
  let txs := periodTxs l i
  let buys := (txs.filter (fun r => r.type = "TOKEN_BUY")).length
  let sells := (txs.filter (fun r => r.type = "TOKEN_SELL")).length
  { periodNumber := i + 1
    startTime := earliestTimestamp l + (i : Int) * periodDuration l
    endTime := earliestTimestamp l + ((i : Int) + 1) * periodDuration l
    transactionCount := txs.length
    buyCount := buys
    sellCount := sells
    buyToSellQuotient := intervalQuotient buys sells
    whaleTransactionsCount := (whaleTxsOf txs).length }

/-- The six market periods (source lines 536-590). -/
def marketPeriods (l : List TradeRecord) : List Period :=
  (List.range 6).map (mkPeriod l)

/-! ### Market impact (source lines 513-524) and the staged core -/

/-- A top wallet together with its market-impact percentage
(source lines 515-524). -/
structure WalletImpact where
  wallet : Wallet
  marketImpact : ℚ
deriving DecidableEq, Repr

/-- `topWalletsImpact` (source lines 513-524). -/
def topWalletsImpact (l : List TradeRecord) : List WalletImpact :=
  let total := (l.map (·.transaction_value)).sum
  (topSuspiciousWallets l).map (fun w =>
    { wallet := w
      marketImpact :=
        (((l.filter (fun tx => tx.trader_wallet_address = some w.address)).map
          (·.transaction_value)).sum) / total * 100 })

/-- The outputs the core hands to its collaborators. -/
structure CoreOut where
  trades : List TradeRecord
  manipulators : List Wallet
  topWallets : List Wallet
  changes : List PriceChange
  pumps : List PumpPattern
  suspIntervals : List SuspInterval
  coordinated : List Coordinated
  whales : List WhaleEntry
  impacts : List WalletImpact
  periods : List Period
deriving Repr

/-- The staged core in source order.  After sorting, the script dereferences
the first and last element of the sorted sequence (source lines 156-160 and
530-532); on an empty normalized dataset that access throws a `TypeError`,
modelled here as the error case. -/
def coreRun (data : List RawRow) : Except String CoreOut :=
  let l := sortedData data
  match l.head?, l.getLast? with
  | some _, some _ =>
    .ok
      { trades := l
        manipulators := scoredManipulators l
        topWallets := topSuspiciousWallets l
        changes := priceChanges l
        pumps := pumpAndDumpPatterns l
        suspIntervals := suspiciousActivityIntervals l
        coordinated := coordinatedActivities l
        whales := whaleEntries l
        impacts := topWalletsImpact l
        periods := marketPeriods l }
  | _, _ => .error "TypeError"

/-! ### Concrete record builders for the examples -/

/-- A normalized buy record as the normalizer would emit it. -/
def buyTR (ts : Int) (w : String) (p a : ℚ) : TradeRecord :=
  { trade_timestamp := ts
    type := "TOKEN_BUY"
    trader_wallet_address := some w
    buy_price := some p
    sell_price := none
    buy_amount := a
    sell_amount := 0
    transaction_value := p * a
    price := some p
    net_sol_balance_change := none }

/-- A normalized sell record as the normalizer would emit it. -/
def sellTR (ts : Int) (w : String) (p a : ℚ) : TradeRecord :=
  { trade_timestamp := ts
    type := "TOKEN_SELL"
    trader_wallet_address := some w
    buy_price := none
    sell_price := some p
    buy_amount := 0
    sell_amount := a
    transaction_value := p * a
    price := some p
    net_sol_balance_change := none }

/-! ### Claim C5: per-wallet suspicion score -/

/-- The five score increments exactly as the specification words them
(amount thresholds written `10 x WHALE_THRESHOLD`), for comparison with the
transliterated `suspiciousScoreOf`. -/
def claimScoreC5 (w : Wallet) : Nat :=
  (if 10 * WHALE_THRESHOLD < w.totalValue then 5
   else if WHALE_THRESHOLD < w.totalValue then 3 else 0) +
  (if w.buyToSellQuotient.gtB 10 || w.buyToSellQuotient.ltB (1/10) then 3 else 0) +
  (if 10 < w.transactionFrequency then 3
   else if 5 < w.transactionFrequency then 2 else 0) +
  (if w.timeActiveHours < 1 ∧ 20 < w.transactionCount then 4 else 0) +
  (if 10 < w.netSOLChange then 3 else 0)

/-- The example wallet of the claim: totalValue 150000, ratio 0, frequency 6,
2 active hours, 12 transactions, net quote change 15. -/
def exC5w : Wallet :=
  { address := "w"
    totalValue := 150000
    buyToSellQuotient := .fin 0
    transactionCount := 12
    timeActiveHours := 2
    transactionFrequency := 6
    netSOLChange := 15
    suspiciousScore := 0 }

/-- Example input for the C5 witness: a single whale buy. -/
def exC5l : List TradeRecord := [buyTR 10 "A" 100 200]

/-- The wallet profile the pipeline computes for `exC5l`. -/
def exC5computed : Wallet :=
  { address := "A"
    totalValue := 20000
    buyToSellQuotient := .inf
    transactionCount := 1
    timeActiveHours := 0
    transactionFrequency := 1
    netSOLChange := 0
    suspiciousScore := 6 }

unseal Rat.mul Rat.add Rat.inv Rat.sub in
/-- C5 (confirmed): the wallet suspicion score is exactly the sum of the five
independent increments of the claim, the claim's example wallet scores 13,
and every wallet emitted by the pipeline carries that score of its own
profile. -/
theorem C5_wallet_score :
    (∀ w : Wallet, suspiciousScoreOf w = claimScoreC5 w) ∧
    suspiciousScoreOf exC5w = 13 ∧
    ∀ (l : List TradeRecord) (w : Wallet), w ∈ scoredManipulators l →
      w.suspiciousScore = suspiciousScoreOf { w with suspiciousScore := 0 } := by
  refine ⟨fun w => ?_, by decide, fun l w hw => ?_⟩
  · unfold suspiciousScoreOf claimScoreC5
    rw [show (10 : ℚ) * WHALE_THRESHOLD = WHALE_THRESHOLD * 10 from mul_comm _ _]
  · rcases List.mem_map.1 hw with ⟨w0, _, rfl⟩
    rfl

unseal Rat.mul Rat.add Rat.inv Rat.sub in
/-- C5 witness: the theorem applied to the concrete pipeline run on `exC5l`
and to the claim's example wallet. -/
theorem C5_wallet_score_witness :
    suspiciousScoreOf exC5w = 13 ∧
    exC5computed ∈ scoredManipulators exC5l ∧
    exC5computed.suspiciousScore =
      suspiciousScoreOf { exC5computed with suspiciousScore := 0 } :=
  ⟨C5_wallet_score.2.1, by decide,
    C5_wallet_score.2.2 exC5l exC5computed (by decide)⟩

/-! ### Claim C6: buy-to-sell quotient convention -/

unseal Rat.mul Rat.add Rat.inv Rat.sub in
/-- C6 (confirmed): the wallet buy/sell statistic follows the degenerate
convention — `buys/sells` when both counts are positive, `Infinity` when only
buys exist, `0` when both are zero — it is a total function of the profile,
and the pipeline applies it to each wallet's final counts. -/
theorem C6_quotient_convention :
    (∀ (l : List TradeRecord) (a : String),
      (mkManipulator l a).buyToSellQuotient =
        quotientConvention (buysCountOf l a) (sellsCountOf l a)) ∧
    (∀ b s : Nat, 0 < b → 0 < s →
      quotientConvention b s = .fin ((b : ℚ) / (s : ℚ))) ∧
    (∀ b : Nat, 0 < b → quotientConvention b 0 = .inf) ∧
    quotientConvention 0 0 = .fin 0 ∧
    quotientConvention 12 0 = .inf ∧
    quotientConvention 9 3 = .fin 3 := by
  refine ⟨fun l a => rfl, fun b s hb hs => ?_, fun b hb => ?_, by decide, by decide,
    by decide⟩
  · unfold quotientConvention
    rw [if_pos ⟨hb, hs⟩]
  · unfold quotientConvention
    rw [if_neg (by simp), if_pos hb]

/-- C6 witness: the conditional cases of the theorem applied at the claim's
example counts. -/
theorem C6_quotient_convention_witness :
    quotientConvention 9 3 = .fin ((9 : ℚ) / (3 : ℚ)) ∧
    quotientConvention 12 0 = .inf :=
  ⟨C6_quotient_convention.2.1 9 3 (by norm_num) (by norm_num),
    C6_quotient_convention.2.2.1 12 (by norm_num)⟩

/-! ### Claim C8: hourly bucketing of whale entries -/

/-- Two whale buys inside the hour window starting at epoch second 7200. -/
def exC8 : List TradeRecord := [buyTR 7200 "A" 100 200, buyTR 7300 "B" 100 200]

unseal Rat.mul Rat.add Rat.inv Rat.sub in
/-- C8 (code bug): for two whale buys at timestamps 7200 and 7300 the emitted
whale entry records timestamp 2 — the raw hour index `floor(ts/3600)` — while
the `floor(timestamp/W)*W` bucket key the claim describes is 7200, the start
of the hour window in epoch seconds. -/
theorem C8_whale_entry_timestamp_divergence :
    (whaleEntries exC8).map (fun e => e.timestamp) = [2] ∧
    (∀ r ∈ exC8, bucketKey 3600 r.trade_timestamp = 7200) ∧
    ¬ (whaleEntries exC8).map (fun e => e.timestamp) = [7200] := by
  decide

/-! ### Claim C1: behaviour on an empty normalized dataset -/

/-- A raw row with no timestamp: dropped by normalization. -/
def exC1 : List RawRow := [{ type := some "TOKEN_BUY", buy_amount := some 5 }]

/-- C1 counterexample: a dataset whose normalization is empty on which the
core does NOT complete — it fails with the modelled `TypeError` of
`sortedData[0].trade_timestamp` instead of reporting zero-length outputs. -/
theorem C1_empty_dataset_counterexample :
    processedData exC1 = [] ∧ coreRun exC1 = .error "TypeError" :=
  ⟨rfl, rfl⟩

/-- C1 (corrected): whenever normalization yields zero valid records, the
core fails when it dereferences the first element of the empty sorted
sequence; no downstream stage output is produced. -/
theorem C1_empty_dataset_core_errors (data : List RawRow)
    (h : processedData data = []) : coreRun data = .error "TypeError" := by
  unfold coreRun sortedData
  rw [h]
  rfl

/-- C1 witness: the theorem applied to the empty raw input. -/
theorem C1_empty_dataset_core_errors_witness :
    processedData ([] : List RawRow) = [] ∧
    coreRun ([] : List RawRow) = .error "TypeError" :=
  ⟨rfl, C1_empty_dataset_core_errors [] rfl⟩

/-! ### Claim C2: fine-interval composite score and coordinated activities -/

/-- The per-bucket composite score as the claim words it: +3 for many
transactions among few wallets, plus twice the wash-trading count, +2 for a
skewed buy/sell quotient, +3 for more than 3 whale-valued transactions. -/
def claimScoreC2 (txs : List TradeRecord) : Nat :=
  let q := intervalQuotient ((txs.filter (fun r => r.type = "TOKEN_BUY")).length)
    ((txs.filter (fun r => r.type = "TOKEN_SELL")).length)
  (if 20 < txs.length ∧ uniqueWalletCount txs < 5 then 3 else 0) +
  2 * (washTraders txs).length +
  (if q.gtB 10 || q.ltB (1/10) then 2 else 0) +
  (if 3 < (txs.filter (fun tx => WHALE_THRESHOLD ≤ tx.transaction_value)).length
   then 3 else 0)

/-- One fine bucket: wallet A makes a whale buy and a whale sell, wallets B
and C each make a small buy and a small sell, so the bucket holds three wash
traders (score 6), two whale transactions, but only ONE distinct whale
wallet. -/
def exC2 : List TradeRecord :=
  [buyTR 10 "A" 100 200, sellTR 20 "A" 100 150,
   buyTR 30 "B" 1 1, sellTR 40 "B" 1 1,
   buyTR 50 "C" 1 1, sellTR 60 "C" 1 1]

/-- C2 (amended): the composite score is exactly the claimed sum, exactly the
positive-score buckets are retained sorted descending by score, and an
interval is reported as a coordinated activity iff its score is at least 5
and its whale-TRANSACTION count (not its distinct-whale-wallet count) is at
least 2. -/
theorem C2_suspicious_intervals :
    (∀ (l : List TradeRecord) (k : Int),
      (mkSuspInterval l k).suspiciousScore = claimScoreC2 (bucketTxs 300 l k)) ∧
    (∀ (l : List TradeRecord) (i : SuspInterval),
      i ∈ suspiciousActivityIntervals l ↔
        (∃ k ∈ bucketKeys 300 l, mkSuspInterval l k = i) ∧ 0 < i.suspiciousScore) ∧
    (∀ l : List TradeRecord, List.Pairwise suspGE (suspiciousActivityIntervals l)) ∧
    (∀ (l : List TradeRecord) (c : Coordinated),
      c ∈ coordinatedActivities l ↔
        ∃ i ∈ suspiciousActivityIntervals l,
          (5 ≤ i.suspiciousScore ∧ 2 ≤ i.whaleTransactionsCount) ∧ c = coordOf i) := by
  have hw : ∀ n : Nat, (if 0 < n then n * 2 else 0) = 2 * n := by
    intro n
    cases n
    · simp
    · simp [Nat.mul_comm]
  refine ⟨fun l k => ?_, fun l i => ?_, fun l => ?_, fun l c => ?_⟩
  · simp only [mkSuspInterval, claimScoreC2, whaleTxsOf, hw]
  · simp only [suspiciousActivityIntervals, List.mem_insertionSort, List.mem_filter,
      List.mem_map, decide_eq_true_eq]
  · exact List.sorted_insertionSort suspGE _
  · simp only [coordinatedActivities, List.mem_map, List.mem_filter, decide_eq_true_eq]
    tauto

unseal Rat.mul Rat.add Rat.inv Rat.sub in
/-- C2 counterexample: on `exC2` a coordinated activity IS reported although
no retained interval holds two distinct whale wallets — the source filter
reads the whale-transaction count, not the distinct-wallet count. -/
theorem C2_coordinated_counterexample :
    (coordinatedActivities exC2).length = 1 ∧
    (∀ c ∈ coordinatedActivities exC2, c.whaleCount = 1) ∧
    (∀ i ∈ suspiciousActivityIntervals exC2, i.uniqueWhaleWallets < 2) := by
  decide

/-! ### Claim C3: pump-and-dump candidate condition -/

/-- Retail buys STRICTLY inside the event window, as the claim words it
(open interval at both endpoints). -/
def strictRetailBuys (l : List TradeRecord) (pumpStart pumpEnd : Int) :
    List TradeRecord :=
  l.filter (fun tx =>
    tx.type = "TOKEN_BUY" ∧ pumpStart < tx.trade_timestamp ∧
      tx.trade_timestamp < pumpEnd ∧ 0 < tx.transaction_value ∧
      tx.transaction_value ≤ RETAIL_THRESHOLD)

/-- An extreme pump scenario: six retail buys in the bucket starting at 600
(one exactly at the boundary timestamp 600), a price rise of 20% into the
bucket at 1200, and one whale sell 100 seconds after the event end. -/
def exC3 : List TradeRecord :=
  [buyTR 600 "r0" 10 1, buyTR 700 "r1" 10 1, buyTR 800 "r2" 10 1,
   buyTR 900 "r3" 10 1, buyTR 1000 "r4" 10 1, buyTR 1100 "r5" 10 1,
   buyTR 1250 "p" 12 1, sellTR 1300 "W" 12 100]

/-- The unique price-change event of `exC3`. -/
def exC3change : PriceChange :=
  { startTimestamp := 600
    endTimestamp := 1200
    startPrice := 10
    endPrice := 12
    percentChange := 20
    isSignificant := true }

unseal Rat.mul Rat.add Rat.inv Rat.sub in
/-- C3 counterexample: the candidate for the 20% event of `exC3` IS emitted,
yet only 5 retail buys lie strictly inside the event window — the sixth sits
exactly on the window start, which the source's closed-interval filter
counts. -/
theorem C3_strict_window_counterexample :
    exC3change ∈ priceChanges exC3 ∧
    10 < exC3change.percentChange ∧
    (∃ pat ∈ pumpAndDumpPatterns exC3, pat.pump = exC3change) ∧
    (strictRetailBuys exC3 600 1200).length = 5 := by
  decide

/-- C3 (amended): for every extreme upward price-change event, a
pump-and-dump candidate is emitted iff more than 5 retail buys have
timestamps in the CLOSED window [eventStart, eventEnd] and at least one
whale sell falls in (eventEnd, eventEnd+1800]. -/
theorem C3_pump_and_dump (l : List TradeRecord) (c : PriceChange)
    (hc : c ∈ priceChanges l) (hx : 10 < c.percentChange) :
    (∃ pat ∈ pumpAndDumpPatterns l, pat.pump = c) ↔
      (5 < (retailBuysDuringPump l c.startTimestamp c.endTimestamp).length ∧
        0 < (whaleSellsAfterPump l c.endTimestamp).length) := by
  constructor
  · rintro ⟨pat, hpat, hpump⟩
    rcases List.mem_filterMap.1 hpat with ⟨c2, _, hmk⟩
    simp only [mkPumpPattern] at hmk
    by_cases h : 5 < (retailBuysDuringPump l c2.startTimestamp c2.endTimestamp).length ∧
        0 < (whaleSellsAfterPump l c2.endTimestamp).length
    · rw [if_pos h] at hmk
      cases hmk
      have h2 : c2 = c := hpump
      rw [h2] at h
      exact h
    · rw [if_neg h] at hmk
      cases hmk
  · intro h
    refine ⟨{ pump := c
              retailBuysCount :=
                (retailBuysDuringPump l c.startTimestamp c.endTimestamp).length
              retailBuysValue :=
                ((retailBuysDuringPump l c.startTimestamp c.endTimestamp).map
                  (·.transaction_value)).sum
              whaleSellsCount := (whaleSellsAfterPump l c.endTimestamp).length
              whaleSellsValue := ((whaleSellsAfterPump l c.endTimestamp).map
                (·.transaction_value)).sum },
      List.mem_filterMap.2 ⟨c, List.mem_filter.2 ⟨hc, by simpa using hx⟩, ?_⟩, rfl⟩
    simp only [mkPumpPattern]
    rw [if_pos h]

unseal Rat.mul Rat.add Rat.inv Rat.sub in
/-- C3 witness: the amended theorem applied to the concrete event of
`exC3`. -/
theorem C3_pump_and_dump_witness :
    exC3change ∈ priceChanges exC3 ∧
    (∃ pat ∈ pumpAndDumpPatterns exC3, pat.pump = exC3change) :=
  ⟨by decide,
    (C3_pump_and_dump exC3 exC3change (by decide) (by decide)).2 (by decide)⟩

/-! ### Claim C9: the six market periods -/

/-- Counting over `List.range`: exactly one index satisfies a predicate that
holds precisely at `q < n`. -/
theorem countP_range_eq_one (n q : Nat) (hq : q < n) (p : Nat → Bool)
    (hp : ∀ i, i < n → (p i = true ↔ i = q)) : (List.range n).countP p = 1 := by
  induction n with
  | zero => exact absurd hq (Nat.not_lt_zero q)
  | succ m ih =>
    rw [List.range_succ, List.countP_append]
    rcases Nat.lt_succ_iff_lt_or_eq.1 hq with h | rfl
    · rw [ih h (fun i hi => hp i (Nat.lt_succ_of_lt hi))]
      have hpm : p m = false := by
        by_cases hb : p m = true
        · exact absurd ((hp m (Nat.lt_succ_self m)).1 hb) (by omega)
        · simpa using hb
      simp [List.countP_cons, hpm]
    · have h0 : (List.range q).countP p = 0 := List.countP_eq_zero.2 (fun i hi hpi => by
        have him : i < q := List.mem_range.1 hi
        have := (hp i (Nat.lt_succ_of_lt him)).1 hpi
        omega)
      have hm : p q = true := (hp q (Nat.lt_succ_self q)).2 rfl
      simp [h0, List.countP_cons, hm]

/-- A timestamp lies in the half-open slice `[e + i*d, e + (i+1)*d)` exactly
when `i` is the euclidean index of `t - e`. -/
theorem period_index_eq {e d t : Int} (hd : 0 < d) (i : Int) :
    (e + i * d ≤ t ∧ t < e + (i + 1) * d) ↔ i = (t - e) / d := by
  have h1 : i ≤ (t - e) / d ↔ i * d ≤ t - e := Int.le_ediv_iff_mul_le hd
  have h2 : (t - e) / d < i + 1 ↔ t - e < (i + 1) * d := Int.ediv_lt_iff_lt_mul hd
  constructor
  · rintro ⟨ha, hb⟩
    have ha2 : i ≤ (t - e) / d := h1.2 (by linarith)
    have hb2 : (t - e) / d < i + 1 := h2.2 (by linarith)
    omega
  · intro hi
    have ha2 : i * d ≤ t - e := h1.1 (le_of_eq hi)
    have hb2 : t - e < (i + 1) * d := h2.1 (by omega)
    exact ⟨by linarith, by linarith⟩

/-- The head of a `tsLE`-sorted list bounds every member from below. -/
theorem sorted_head_le (s : List TradeRecord) (hs : List.Sorted tsLE s)
    (hne : s ≠ []) : ∀ r ∈ s, (s.head hne).trade_timestamp ≤ r.trade_timestamp := by
  rcases s with _ | ⟨a, t⟩
  · exact absurd rfl hne
  · intro r hr
    rcases List.mem_cons.1 hr with rfl | hr2
    · exact le_refl _
    · exact List.rel_of_sorted_cons hs r hr2

/-- The last element of a `tsLE`-sorted list bounds every member from above. -/
theorem sorted_le_getLast (s : List TradeRecord) (hs : List.Sorted tsLE s)
    (hne : s ≠ []) : ∀ r ∈ s, r.trade_timestamp ≤ (s.getLast hne).trade_timestamp := by
  induction s with
  | nil => exact absurd rfl hne
  | cons a t ih =>
    intro r hr
    rcases t with _ | ⟨b, t2⟩
    · have : r = a := by simpa using hr
      subst this
      exact le_refl _
    · rw [List.getLast_cons (List.cons_ne_nil b t2)]
      rcases List.mem_cons.1 hr with rfl | hr2
      · exact List.rel_of_sorted_cons hs _
          (List.getLast_mem (List.cons_ne_nil b t2))
      · exact ih hs.of_cons (List.cons_ne_nil b t2) r hr2

/-- Trades at timestamps 6 and 12: the six periods are `[6,7) ... [11,12)`
and the trade at the latest timestamp 12 lies in none of them. -/
def exC9 : List TradeRecord := [buyTR 6 "a" 1 1, buyTR 12 "b" 1 1]

unseal Rat.mul Rat.add Rat.inv Rat.sub in
/-- C9 counterexample: `exC9` holds a trade at the latest observed timestamp,
yet no market period contains that timestamp — the claim that every trade
(including the one at the latest timestamp) lies in exactly one period is
false. -/
theorem C9_latest_trade_outside_counterexample :
    (∃ r ∈ exC9, r.trade_timestamp = latestTimestamp exC9) ∧
    (marketPeriods exC9).countP
      (fun p => decide (p.startTime ≤ latestTimestamp exC9 ∧
        latestTimestamp exC9 < p.endTime)) = 0 := by
  decide

/-- C9 (amended): the six periods are contiguous equal slices of duration
`floor((latest-earliest)/6)` starting at the earliest timestamp; they cover
`[earliest, earliest + 6*duration)` with exactly one period per timestamp,
while every timestamp at or beyond `earliest + 6*duration` — in particular
the latest observed timestamp itself — lies in no period. -/
theorem C9_market_periods (l : List TradeRecord) (hne : l ≠ []) :
    (∀ r ∈ l, earliestTimestamp l ≤ r.trade_timestamp ∧
      r.trade_timestamp ≤ latestTimestamp l) ∧
    earliestTimestamp l + 6 * periodDuration l ≤ latestTimestamp l ∧
    (∀ t : Int, earliestTimestamp l ≤ t →
      t < earliestTimestamp l + 6 * periodDuration l →
      (marketPeriods l).countP
        (fun p => decide (p.startTime ≤ t ∧ t < p.endTime)) = 1) ∧
    (∀ t : Int, earliestTimestamp l + 6 * periodDuration l ≤ t →
      (marketPeriods l).countP
        (fun p => decide (p.startTime ≤ t ∧ t < p.endTime)) = 0) ∧
    (marketPeriods l).countP
      (fun p => decide (p.startTime ≤ latestTimestamp l ∧
        latestTimestamp l < p.endTime)) = 0 := by
  have hlen : sortedTransactions l ≠ [] := by
    intro h
    apply hne
    have h2 := congrArg List.length h
    unfold sortedTransactions at h2
    rw [List.length_insertionSort] at h2
    exact List.length_eq_zero.1 h2
  have hsort : List.Sorted tsLE (sortedTransactions l) :=
    List.sorted_insertionSort tsLE l
  have hhead : earliestTimestamp l =
      ((sortedTransactions l).head hlen).trade_timestamp := by
    unfold earliestTimestamp
    rw [List.head?_eq_head hlen]
    rfl
  have hlast : latestTimestamp l =
      ((sortedTransactions l).getLast hlen).trade_timestamp := by
    unfold latestTimestamp
    rw [List.getLast?_eq_getLast _ hlen]
    rfl
  have hbounds : ∀ r ∈ l, earliestTimestamp l ≤ r.trade_timestamp ∧
      r.trade_timestamp ≤ latestTimestamp l := by
    intro r hr
    have hrs : r ∈ sortedTransactions l := (List.mem_insertionSort tsLE).2 hr
    exact ⟨hhead ▸ sorted_head_le _ hsort hlen r hrs,
      hlast ▸ sorted_le_getLast _ hsort hlen r hrs⟩
  have hel : earliestTimestamp l ≤ latestTimestamp l := by
    have hm : (sortedTransactions l).getLast hlen ∈ sortedTransactions l :=
      List.getLast_mem hlen
    have := sorted_head_le _ hsort hlen _ hm
    rw [hhead, hlast]
    exact this
  have hD : (0 : Int) ≤ latestTimestamp l - earliestTimestamp l := by linarith
  have hdur : periodDuration l =
      (latestTimestamp l - earliestTimestamp l) / 6 := by
    unfold periodDuration
    exact Int.fdiv_eq_ediv _ (by norm_num)
  have hd0 : 0 ≤ periodDuration l := by
    rw [hdur]
    exact Int.ediv_nonneg hD (by norm_num)
  have hb : earliestTimestamp l + 6 * periodDuration l ≤ latestTimestamp l := by
    have h6 := Int.ediv_add_emod (latestTimestamp l - earliestTimestamp l) 6
    have hm6 := Int.emod_nonneg (latestTimestamp l - earliestTimestamp l)
      (show (6:Int) ≠ 0 by norm_num)
    rw [hdur]
    linarith
  have hms : ∀ i : Nat, (mkPeriod l i).startTime =
      earliestTimestamp l + (i : Int) * periodDuration l := fun i => rfl
  have hme : ∀ i : Nat, (mkPeriod l i).endTime =
      earliestTimestamp l + ((i : Int) + 1) * periodDuration l := fun i => rfl
  have hcone : ∀ t : Int, earliestTimestamp l ≤ t →
      t < earliestTimestamp l + 6 * periodDuration l →
      (marketPeriods l).countP
        (fun p => decide (p.startTime ≤ t ∧ t < p.endTime)) = 1 := by
    intro t ht1 ht2
    have hd : 0 < periodDuration l := by
      rcases lt_or_eq_of_le hd0 with h | h
      · exact h
      · exfalso
        rw [← h] at ht2
        simp at ht2
        linarith
    have hq0 : 0 ≤ (t - earliestTimestamp l) / periodDuration l :=
      Int.ediv_nonneg (by linarith) (le_of_lt hd)
    have hq6 : (t - earliestTimestamp l) / periodDuration l < 6 :=
      (Int.ediv_lt_iff_lt_mul hd).2 (by linarith)
    rw [marketPeriods, List.countP_map]
    refine countP_range_eq_one 6
      ((t - earliestTimestamp l) / periodDuration l).toNat (by omega)
      _ (fun i hi => ?_)
    simp only [Function.comp, hms, hme, decide_eq_true_eq]
    rw [period_index_eq hd (i : Int)]
    omega
  have hczero : ∀ t : Int, earliestTimestamp l + 6 * periodDuration l ≤ t →
      (marketPeriods l).countP
        (fun p => decide (p.startTime ≤ t ∧ t < p.endTime)) = 0 := by
    intro t ht
    rw [marketPeriods, List.countP_map]
    refine List.countP_eq_zero.2 (fun i hi => ?_)
    have hi6 : i < 6 := List.mem_range.1 hi
    simp only [Function.comp, hms, hme, decide_eq_true_eq]
    rintro ⟨h1, h2⟩
    have hmono : ((i : Int) + 1) * periodDuration l ≤ 6 * periodDuration l :=
      mul_le_mul_of_nonneg_right (by omega) hd0
    linarith
  exact ⟨hbounds, hb, hcone, hczero, hczero _ hb⟩

unseal Rat.mul Rat.add Rat.inv Rat.sub in
/-- C9 witness: the amended theorem applied to `exC9` — the timestamp 6 is in
exactly one period, record bounds hold, and the latest timestamp is in no
period. -/
theorem C9_market_periods_witness :
    (earliestTimestamp exC9 ≤ 6 ∧ (6 : Int) ≤ latestTimestamp exC9) ∧
    (marketPeriods exC9).countP
      (fun p => decide (p.startTime ≤ (6 : Int) ∧ (6 : Int) < p.endTime)) = 1 ∧
    (marketPeriods exC9).countP
      (fun p => decide (p.startTime ≤ latestTimestamp exC9 ∧
        latestTimestamp exC9 < p.endTime)) = 0 :=
  ⟨(C9_market_periods exC9 (by decide)).1 (buyTR 6 "a" 1 1) (by decide),
    (C9_market_periods exC9 (by decide)).2.2.1 6 (by decide) (by decide),
    (C9_market_periods exC9 (by decide)).2.2.2.2⟩

/-! ### Claim C10: trades with a missing wallet address -/

/-- Filtering to addressed records first changes nothing for a predicate
that itself requires an address. -/
theorem filter_strip_of_imp (p : TradeRecord → Bool)
    (h : ∀ r, p r = true → r.trader_wallet_address ≠ none) :
    ∀ txs : List TradeRecord,
      (txs.filter (fun r => r.trader_wallet_address ≠ none)).filter p =
        txs.filter p
  | [] => rfl
  | a :: t => by
    by_cases ha : a.trader_wallet_address = none
    · have hstrip : (a :: t).filter (fun r => r.trader_wallet_address ≠ none) =
          t.filter (fun r => r.trader_wallet_address ≠ none) := by
        rw [List.filter_cons]
        simp [ha]
      have hpa : p a = false := by
        by_cases hb : p a = true
        · exact absurd ha (h a hb)
        · simpa using hb
      rw [hstrip, filter_strip_of_imp p h t, List.filter_cons, hpa]
      simp
    · have hstrip : (a :: t).filter (fun r => r.trader_wallet_address ≠ none) =
          a :: t.filter (fun r => r.trader_wallet_address ≠ none) := by
        rw [List.filter_cons]
        simp [ha]
      rw [hstrip, List.filter_cons, List.filter_cons, filter_strip_of_imp p h t]

/-- Dropping the unaddressed records does not change the collected
addresses. -/
theorem filterMap_addr_strip :
    ∀ txs : List TradeRecord,
      (txs.filter (fun r => r.trader_wallet_address ≠ none)).filterMap
        (·.trader_wallet_address) = txs.filterMap (·.trader_wallet_address)
  | [] => rfl
  | a :: t => by
    rcases ha : a.trader_wallet_address with _ | x
    · have hstrip : (a :: t).filter (fun r => r.trader_wallet_address ≠ none) =
          t.filter (fun r => r.trader_wallet_address ≠ none) := by
        rw [List.filter_cons]
        simp [ha]
      rw [hstrip, filterMap_addr_strip t, List.filterMap_cons]
      simp [ha]
    · have hstrip : (a :: t).filter (fun r => r.trader_wallet_address ≠ none) =
          a :: t.filter (fun r => r.trader_wallet_address ≠ none) := by
        rw [List.filter_cons]
        simp [ha]
      rw [hstrip, List.filterMap_cons, List.filterMap_cons, filterMap_addr_strip t]

/-- The per-wallet record view is blind to unaddressed records. -/
theorem walletTxs_strip (l : List TradeRecord) (a : String) :
    walletTxs (l.filter (fun r => r.trader_wallet_address ≠ none)) a =
      walletTxs l a :=
  filter_strip_of_imp _ (fun r hr => by
    have : r.trader_wallet_address = some a := by simpa using hr
    simp [this]) l

/-- A wallet profile is blind to unaddressed records. -/
theorem mkManipulator_strip (l : List TradeRecord) (a : String) :
    mkManipulator (l.filter (fun r => r.trader_wallet_address ≠ none)) a =
      mkManipulator l a := by
  simp only [mkManipulator, buysCountOf, sellsCountOf, buysValueOf, sellsValueOf,
    txCountOf, firstSeenOf, lastSeenOf, netSOLChangeOf, walletTxs_strip]

/-- The wash-count filters only ever match addressed records. -/
theorem filter_addr_type_strip (txs : List TradeRecord) (a ty : String) :
    ((txs.filter (fun r => r.trader_wallet_address ≠ none)).filter
      (fun r => r.trader_wallet_address = some a ∧ r.type = ty)) =
    txs.filter (fun r => r.trader_wallet_address = some a ∧ r.type = ty) :=
  filter_strip_of_imp _ (fun r hr => by
    have : r.trader_wallet_address = some a ∧ r.type = ty := by simpa using hr
    simp [this.1]) txs

/-- Every `Option` list with an occurrence of `none` deduplicates to one more
element than its flattened form. -/
theorem dedup_length_no_none :
    ∀ L : List (Option String), none ∉ L →
      L.dedup.length = (L.filterMap id).dedup.length := by
  intro L
  induction L with
  | nil => intro _; rfl
  | cons a t ih =>
    intro h
    have hnt : none ∉ t := fun e => h (List.mem_cons_of_mem _ e)
    rcases a with _ | x
    · exact absurd (List.mem_cons_self _ _) h
    · by_cases hmem : some x ∈ t
      · have hx : x ∈ t.filterMap id := List.mem_filterMap.2 ⟨some x, hmem, rfl⟩
        simp [List.dedup_cons_of_mem, hmem, hx, List.filterMap_cons, ih hnt]
      · have hx : x ∉ t.filterMap id := by
          intro hx2
          rcases List.mem_filterMap.1 hx2 with ⟨o, ho, he⟩
          rcases o with _ | y
          · cases he
          · cases he
            exact hmem ho
        simp [List.dedup_cons_of_not_mem, hmem, hx, List.filterMap_cons, ih hnt]

/-- The `none` occurrences of an `Option` list contribute exactly one element
to its deduplication. -/
theorem dedup_length_with_none :
    ∀ L : List (Option String), none ∈ L →
      L.dedup.length = 1 + (L.filterMap id).dedup.length := by
  intro L
  induction L with
  | nil => intro h; cases h
  | cons a t ih =>
    intro h
    rcases a with _ | x
    · by_cases hnt : none ∈ t
      · rw [List.dedup_cons_of_mem hnt]
        simpa [List.filterMap_cons] using ih hnt
      · rw [List.dedup_cons_of_not_mem hnt]
        simp [List.filterMap_cons, List.length_cons]
        rw [dedup_length_no_none t hnt]
        omega
    · have hnt : none ∈ t := by
        rcases List.mem_cons.1 h with he | ht
        · cases he
        · exact ht
      by_cases hmem : some x ∈ t
      · have hx : x ∈ t.filterMap id := List.mem_filterMap.2 ⟨some x, hmem, rfl⟩
        simp [List.dedup_cons_of_mem, hmem, hx, List.filterMap_cons, ih hnt]
      · have hx : x ∉ t.filterMap id := by
          intro hx2
          rcases List.mem_filterMap.1 hx2 with ⟨o, ho, he⟩
          rcases o with _ | y
          · cases he
          · cases he
            exact hmem ho
        simp [List.dedup_cons_of_not_mem, hmem, hx, List.filterMap_cons]
        rw [ih hnt]
        omega

/-- C10 (confirmed): records without a wallet address create no wallet
profile and are never wash-trader candidates — removing them changes neither
the scored wallet list nor any bucket's wash-trader list — yet inside a
bucket that contains such records they contribute exactly one element to the
unique-wallet count. -/
theorem C10_missing_address :
    (∀ l : List TradeRecord,
      scoredManipulators (l.filter (fun r => r.trader_wallet_address ≠ none)) =
        scoredManipulators l) ∧
    (∀ txs : List TradeRecord,
      washTraders (txs.filter (fun r => r.trader_wallet_address ≠ none)) =
        washTraders txs) ∧
    (∀ txs : List TradeRecord, (∃ r ∈ txs, r.trader_wallet_address = none) →
      uniqueWalletCount txs =
        1 + ((txs.filterMap (·.trader_wallet_address)).dedup).length) := by
  refine ⟨fun l => ?_, fun txs => ?_, fun txs h => ?_⟩
  · simp only [scoredManipulators, suspectedManipulators, walletKeys,
      filterMap_addr_strip]
    rw [show mkManipulator (l.filter (fun r => r.trader_wallet_address ≠ none)) =
      mkManipulator l from funext (mkManipulator_strip l)]
  · unfold washTraders
    rw [filterMap_addr_strip]
    simp only [filter_addr_type_strip]
  · rcases h with ⟨r, hr, he⟩
    have hnone : none ∈ txs.map (·.trader_wallet_address) :=
      List.mem_map.2 ⟨r, hr, he⟩
    unfold uniqueWalletCount
    rw [dedup_length_with_none _ hnone]
    congr 2
    rw [List.filterMap_map]
    rfl

/-- One unaddressed trade and one addressed trade in a bucket. -/
def exC10 : List TradeRecord :=
  [{ buyTR 10 "X" 1 1 with trader_wallet_address := none }, buyTR 20 "A" 1 1]

unseal Rat.mul Rat.add Rat.inv Rat.sub in
/-- C10 witness: the theorem applied to the concrete bucket `exC10`, whose
unaddressed trade collapses to one extra unique-wallet element. -/
theorem C10_missing_address_witness :
    uniqueWalletCount exC10 =
      1 + ((exC10.filterMap (·.trader_wallet_address)).dedup).length ∧
    washTraders (exC10.filter (fun r => r.trader_wallet_address ≠ none)) =
      washTraders exC10 :=
  ⟨C10_missing_address.2.2 exC10 (by decide), C10_missing_address.2.1 exC10⟩

/-! ### Claim C4: price series and adjacency events -/

/-- The interval of bucket `k` carries `k` as its timestamp. -/
theorem mkPriceInterval_timestamp (l : List TradeRecord) (k : Int) :
    (mkPriceInterval l k).timestamp = k := rfl

/-- The timestamps of the retained price intervals repeat no bucket. -/
theorem nodup_priceInterval_timestamps (l : List TradeRecord) :
    ((sortedPriceIntervals l).map (fun i => i.timestamp)).Nodup := by
  have hkeys : ((List.map (mkPriceInterval l) (bucketKeys 600 l)).map
      (fun i => i.timestamp)) = bucketKeys 600 l := by
    rw [List.map_map]
    have : ((fun i : PriceInterval => i.timestamp) ∘ mkPriceInterval l) = id :=
      funext (fun k => rfl)
    rw [this, List.map_id]
  have hnd : ((List.map (mkPriceInterval l) (bucketKeys 600 l)).map
      (fun i => i.timestamp)).Nodup := by
    rw [hkeys]
    exact List.nodup_dedup _
  have hsub : List.Sublist
      (((List.map (mkPriceInterval l) (bucketKeys 600 l)).filter
        (fun i => truthyQ i.price)).map (fun i => i.timestamp))
      ((List.map (mkPriceInterval l) (bucketKeys 600 l)).map
        (fun i => i.timestamp)) :=
    (List.filter_sublist _).map _
  have hnd2 := hnd.sublist hsub
  have hperm : List.Perm
      (List.insertionSort ivLE
        ((List.map (mkPriceInterval l) (bucketKeys 600 l)).filter
          (fun i => truthyQ i.price)))
      ((List.map (mkPriceInterval l) (bucketKeys 600 l)).filter
        (fun i => truthyQ i.price)) := List.perm_insertionSort ivLE _
  exact ((hperm.map (fun i => i.timestamp)).nodup_iff).2 hnd2

/-- The price series of the C4 example: buy prices 10 and 10.2, a sell-only
bucket at 12, then a buy at 6. -/
def exC4 : List TradeRecord :=
  [buyTR 60 "a" 10 1, buyTR 660 "b" (51/5) 1, sellTR 1260 "c" 12 1,
   buyTR 1860 "d" 6 1]

/-- The significant event of the second adjacent pair of `exC4`. -/
def exC4e : PriceChange :=
  { startTimestamp := 600
    endTimestamp := 1200
    startPrice := 51/5
    endPrice := 12
    percentChange := 300/17
    isSignificant := true }

unseal Rat.mul Rat.add Rat.inv Rat.sub in
/-- C4 (confirmed): the retained price series holds one point per bucket in
strictly increasing order, exactly the non-empty buckets with a truthy price
appear, the point price is mean-buy-else-mean-sell, an event is emitted for
an adjacent pair iff the absolute percent change exceeds 5 and is significant
iff it exceeds 10; on the price series 10, 10.2, 12, 6 only the +300/17 %
and -50 % events are emitted, both significant. -/
theorem C4_price_changes :
    (∀ l : List TradeRecord,
      List.Pairwise (fun a b : PriceInterval => a.timestamp < b.timestamp)
        (sortedPriceIntervals l)) ∧
    (∀ (l : List TradeRecord) (k : Int),
      (∃ i ∈ sortedPriceIntervals l, i.timestamp = k) ↔
        (k ∈ bucketKeys 600 l ∧ truthyQ (mkPriceInterval l k).price = true)) ∧
    (∀ (l : List TradeRecord) (k : Int), (mkPriceInterval l k).price =
      jsOrQ (mkPriceInterval l k).avgBuyPrice (mkPriceInterval l k).avgSellPrice) ∧
    (∀ prev curr : PriceInterval,
      ((mkPriceChange prev curr).isSome = true ↔
        5 < |(curr.price.getD 0 - prev.price.getD 0) / prev.price.getD 0 * 100|) ∧
      (∀ e, mkPriceChange prev curr = some e →
        e.percentChange =
          (curr.price.getD 0 - prev.price.getD 0) / prev.price.getD 0 * 100 ∧
        (e.isSignificant = true ↔ 10 < |e.percentChange|))) ∧
    (priceChanges exC4).map (fun e => (e.percentChange, e.isSignificant)) =
      [(300/17, true), (-50, true)] := by
  refine ⟨fun l => ?_, fun l k => ?_, fun l k => rfl, fun prev curr => ⟨?_, ?_⟩, ?_⟩
  · have hsorted : List.Sorted ivLE (sortedPriceIntervals l) :=
      List.sorted_insertionSort ivLE _
    have hnd := nodup_priceInterval_timestamps l
    have hne : List.Pairwise (fun a b : PriceInterval => a.timestamp ≠ b.timestamp)
        (sortedPriceIntervals l) := (List.pairwise_map).1 hnd
    exact (hsorted.and hne).imp (fun h => lt_of_le_of_ne h.1 h.2)
  · constructor
    · rintro ⟨i, hi, rfl⟩
      have hi2 := (List.mem_insertionSort ivLE).1 hi
      rcases List.mem_filter.1 hi2 with ⟨hm, hp⟩
      rcases List.mem_map.1 hm with ⟨k2, hk2, rfl⟩
      exact ⟨hk2, hp⟩
    · rintro ⟨hk, hp⟩
      exact ⟨mkPriceInterval l k, (List.mem_insertionSort ivLE).2
        (List.mem_filter.2 ⟨List.mem_map.2 ⟨k, hk, rfl⟩, hp⟩), rfl⟩
  · by_cases h : 5 < |(curr.price.getD 0 - prev.price.getD 0) /
        prev.price.getD 0 * 100|
    · simp [mkPriceChange, h]
    · simp [mkPriceChange, h]
  · intro e he
    by_cases h : 5 < |(curr.price.getD 0 - prev.price.getD 0) /
        prev.price.getD 0 * 100|
    · simp only [mkPriceChange] at he
      rw [if_pos h] at he
      cases he
      refine ⟨rfl, ?_⟩
      simp
    · simp only [mkPriceChange] at he
      rw [if_neg h] at he
      cases he
  · decide

unseal Rat.mul Rat.add Rat.inv Rat.sub in
/-- C4 witness: the adjacency characterization applied to the concrete
second pair of `exC4`, whose event is `exC4e`. -/
theorem C4_price_changes_witness :
    (mkPriceChange (mkPriceInterval exC4 600) (mkPriceInterval exC4 1200)).isSome
      = true ∧
    exC4e.percentChange =
      ((mkPriceInterval exC4 1200).price.getD 0 -
        (mkPriceInterval exC4 600).price.getD 0) /
        (mkPriceInterval exC4 600).price.getD 0 * 100 ∧
    (exC4e.isSignificant = true ↔ 10 < |exC4e.percentChange|) :=
  ⟨(C4_price_changes.2.2.2.1 (mkPriceInterval exC4 600)
      (mkPriceInterval exC4 1200)).1.2 (by decide),
    ((C4_price_changes.2.2.2.1 (mkPriceInterval exC4 600)
      (mkPriceInterval exC4 1200)).2 exC4e (by decide)).1,
    ((C4_price_changes.2.2.2.1 (mkPriceInterval exC4 600)
      (mkPriceInterval exC4 1200)).2 exC4e (by decide)).2⟩

/-! ### Claim C7: normalized output order, stability and the value identity -/

/-- A falsy optional number defaults to zero. -/
theorem truthyQ_false_getD (o : Option ℚ) (h : truthyQ o = false) :
    o.getD 0 = 0 := by
  rcases o with _ | x
  · rfl
  · have hx : x = 0 := by simpa [truthyQ] using h
    simp [hx]

/-- Inserting a record with the filtered key prepends it to the key's
records: all records it passes have strictly smaller keys. -/
theorem filter_orderedInsert_eq_key (x : TradeRecord) (t : Int)
    (hx : x.trade_timestamp = t) :
    ∀ L : List TradeRecord,
      (List.orderedInsert tsLE x L).filter (fun r => r.trade_timestamp = t) =
        x :: L.filter (fun r => r.trade_timestamp = t)
  | [] => by simp [List.orderedInsert, hx]
  | b :: L2 => by
    by_cases h : tsLE x b
    · rw [List.orderedInsert, if_pos h]
      simp [List.filter_cons, hx]
    · rw [List.orderedInsert, if_neg h]
      have hb : ¬ b.trade_timestamp = t := by
        intro e
        exact h (show tsLE x b from le_of_eq (by rw [hx, e]))
      simp [List.filter_cons, hb, filter_orderedInsert_eq_key x t hx L2]

/-- Inserting a record with another key leaves the filtered key's records
unchanged. -/
theorem filter_orderedInsert_ne_key (x : TradeRecord) (t : Int)
    (hx : ¬ x.trade_timestamp = t) :
    ∀ L : List TradeRecord,
      (List.orderedInsert tsLE x L).filter (fun r => r.trade_timestamp = t) =
        L.filter (fun r => r.trade_timestamp = t)
  | [] => by simp [List.orderedInsert, hx]
  | b :: L2 => by
    by_cases h : tsLE x b
    · rw [List.orderedInsert, if_pos h]
      simp [List.filter_cons, hx]
    · rw [List.orderedInsert, if_neg h]
      simp [List.filter_cons, filter_orderedInsert_ne_key x t hx L2]

/-- Stability of the timestamp sort: the subsequence of records carrying any
fixed timestamp is exactly the input subsequence. -/
theorem filter_insertionSort_eq (t : Int) :
    ∀ L : List TradeRecord,
      (List.insertionSort tsLE L).filter (fun r => r.trade_timestamp = t) =
        L.filter (fun r => r.trade_timestamp = t)
  | [] => rfl
  | x :: L => by
    rw [List.insertionSort]
    by_cases hx : x.trade_timestamp = t
    · rw [filter_orderedInsert_eq_key x t hx _, filter_insertionSort_eq t L]
      simp [List.filter_cons, hx]
    · rw [filter_orderedInsert_ne_key x t hx _, filter_insertionSort_eq t L]
      simp [List.filter_cons, hx]

/-- The claim's per-record invariant, read with JavaScript semantics: a
record whose active-side price is absent carries a `NaN` price, and
`0 == amount * NaN` is false. -/
def valueEqB (r : TradeRecord) : Bool :=
  match r.price with
  | some p => decide (r.transaction_value =
      (if r.type = "TOKEN_BUY" then r.buy_amount else r.sell_amount) * p)
  | none => false

/-- Every record the normalizer emits satisfies the conditional value
identity: `value = amount * price` whenever the stored price is present, and
`value = 0` when the price is absent. -/
theorem normRow_value (raw : RawRow) (r : TradeRecord) (h : normRow raw = some r) :
    (∀ p, r.price = some p → r.transaction_value =
      (if r.type = "TOKEN_BUY" then r.buy_amount else r.sell_amount) * p) ∧
    (r.price = none → r.transaction_value = 0) := by
  simp only [normRow] at h
  by_cases hv : truthyI raw.trade_timestamp = true ∧ truthyS raw.type = true ∧
      (truthyQ raw.buy_amount = true ∨ truthyQ raw.sell_amount = true)
  · rw [if_pos hv] at h
    injection h with h
    subst h
    by_cases hb : raw.type = some "TOKEN_BUY"
    · have ht : raw.type.getD "" = "TOKEN_BUY" := by rw [hb]; rfl
      have hns : ¬ raw.type = some "TOKEN_SELL" := by rw [hb]; simp
      constructor
      · intro p hp
        dsimp only at hp ⊢
        rw [if_pos hb] at hp
        rw [if_pos ht, if_pos hb]
        by_cases h1 : truthyQ raw.buy_price = true
        · by_cases h2 : truthyQ raw.buy_amount = true
          · rw [if_pos ⟨hb, h1, h2⟩, hp]
            simp [mul_comm]
          · rw [if_neg (fun hc => h2 hc.2.2), if_neg (fun hc => hns hc.1),
              truthyQ_false_getD _ (by simpa using h2)]
            simp
        · have hp0 : p = 0 := by
            rw [hp] at h1
            simpa [truthyQ] using h1
          rw [if_neg (fun hc => h1 hc.2.1), if_neg (fun hc => hns hc.1), hp0]
          simp
      · intro hp
        dsimp only at hp ⊢
        rw [if_pos hb] at hp
        have h1 : ¬ truthyQ raw.buy_price = true := by
          rw [hp]
          simp [truthyQ]
        rw [if_neg (fun hc => h1 hc.2.1), if_neg (fun hc => hns hc.1)]
    · by_cases hs : raw.type = some "TOKEN_SELL"
      · have ht : raw.type.getD "" = "TOKEN_SELL" := by rw [hs]; rfl
        have htb : ¬ raw.type.getD "" = "TOKEN_BUY" := by
          rw [ht]
          simp
        constructor
        · intro p hp
          dsimp only at hp ⊢
          rw [if_neg hb] at hp
          rw [if_neg htb, if_pos hs]
          by_cases h1 : truthyQ raw.sell_price = true
          · by_cases h2 : truthyQ raw.sell_amount = true
            · rw [if_neg (fun hc => hb hc.1), if_pos ⟨hs, h1, h2⟩, hp]
              simp [mul_comm]
            · rw [if_neg (fun hc => hb hc.1), if_neg (fun hc => h2 hc.2.2),
                truthyQ_false_getD _ (by simpa using h2)]
              simp
          · have hp0 : p = 0 := by
              rw [hp] at h1
              simpa [truthyQ] using h1
            rw [if_neg (fun hc => hb hc.1), if_neg (fun hc => h1 hc.2.1), hp0]
            simp
        · intro hp
          dsimp only at hp ⊢
          rw [if_neg hb] at hp
          have h1 : ¬ truthyQ raw.sell_price = true := by
            rw [hp]
            simp [truthyQ]
          rw [if_neg (fun hc => hb hc.1), if_neg (fun hc => h1 hc.2.1)]
      · have htb : ¬ raw.type.getD "" = "TOKEN_BUY" := by
          rcases hty : raw.type with _ | s2
          · simp
          · intro he
            apply hb
            rw [hty]
            exact congrArg some he
        constructor
        · intro p hp
          dsimp only at hp ⊢
          rw [if_neg htb, if_neg hs, if_neg (fun hc => hb hc.1),
            if_neg (fun hc => hs hc.1)]
          simp
        · intro hp
          dsimp only at hp ⊢
          rw [if_neg (fun hc => hb hc.1), if_neg (fun hc => hs hc.1)]
  · rw [if_neg hv] at h
    cases h

/-- C7 (amended): the normalized output is sorted non-decreasing by
timestamp; the sort is stable (for every timestamp the retained subsequence
equals the input subsequence); and every record satisfies
`value = amount x price` for its active side whenever the active-side price
is present, while a record with an absent active-side price carries value
0 (and a `NaN` price, on which the JavaScript equality is false). -/
theorem C7_normalization :
    (∀ data : List RawRow, List.Pairwise tsLE (sortedData data)) ∧
    (∀ (data : List RawRow) (t : Int),
      (sortedData data).filter (fun r => r.trade_timestamp = t) =
        (processedData data).filter (fun r => r.trade_timestamp = t)) ∧
    (∀ (data : List RawRow) (r : TradeRecord), r ∈ processedData data →
      (∀ p, r.price = some p → r.transaction_value =
        (if r.type = "TOKEN_BUY" then r.buy_amount else r.sell_amount) * p) ∧
      (r.price = none → r.transaction_value = 0)) := by
  refine ⟨fun data => List.sorted_insertionSort tsLE _,
    fun data t => filter_insertionSort_eq t _, fun data r hr => ?_⟩
  rcases List.mem_filterMap.1 hr with ⟨raw, _, hn⟩
  exact normRow_value raw r hn

/-- A raw buy row with an amount but no price: it passes validation. -/
def exC7 : List RawRow :=
  [{ trade_timestamp := some 100, type := some "TOKEN_BUY", buy_amount := some 5 }]

unseal Rat.mul Rat.add Rat.inv Rat.sub in
/-- C7 counterexample: the normalizer keeps a buy row with a missing buy
price; the resulting record has value 0, amount 5 and a `NaN` price, so
`value == amount x price` fails for it. -/
theorem C7_value_counterexample :
    (sortedData exC7).length = 1 ∧
    ¬ (∀ r ∈ sortedData exC7, valueEqB r = true) := by
  decide

/-- A complete raw buy row and its normalized record, for the witness. -/
def exC7b : List RawRow :=
  [{ trade_timestamp := some 100, type := some "TOKEN_BUY",
     trader_wallet_address := some "A", buy_price := some 3,
     buy_amount := some 5 }]

/-- The record the normalizer emits for `exC7b`. -/
def exC7r : TradeRecord :=
  { trade_timestamp := 100
    type := "TOKEN_BUY"
    trader_wallet_address := some "A"
    buy_price := some 3
    sell_price := none
    buy_amount := 5
    sell_amount := 0
    transaction_value := 15
    price := some 3
    net_sol_balance_change := none }

unseal Rat.mul Rat.add Rat.inv Rat.sub in
/-- C7 witness: the amended theorem applied to a concrete complete buy row
(value 15 = 5 x 3) and to the price-less record of `exC7` (value 0). -/
theorem C7_normalization_witness :
    exC7r ∈ processedData exC7b ∧
    exC7r.transaction_value =
      (if exC7r.type = "TOKEN_BUY" then exC7r.buy_amount else exC7r.sell_amount) * 3 :=
  ⟨by decide,
    (C7_normalization.2.2 exC7b exC7r (by decide)).1 3 (by decide)⟩

end IA
